import Mathlib

/-!
Verification of the pubmed-fetchers pipeline (`pubmed_fetcher/filter.py`,
`api.py`, `output.py`) against its specification.

Strings are modelled over their character lists. Case folding and whitespace
stripping follow the source's behaviour on the ASCII range (the keyword sets
and all inputs of interest are ASCII).
-/

/-- Python `needle.isPrefix-like` test: does `hay` start with `needle`?
Auxiliary for substring containment. -/
def startsSeg : List Char → List Char → Bool
  | [], _ => true
  | _ :: _, [] => false
  | a :: as_, b :: bs => a == b && startsSeg as_ bs

/-- Does `hay` contain `needle` as a contiguous segment?  Mirrors Python's
`needle in hay` for strings (an empty needle is contained in everything). -/
def hasSeg (hay needle : List Char) : Bool :=
  match hay with
  | [] => needle.isEmpty
  | _ :: t => startsSeg needle hay || hasSeg t needle

/-- Python `needle in hay` on strings. -/
def pyIn (needle hay : String) : Bool :=
  hasSeg hay.data needle.data

/-- Python `str.lower()` (ASCII range). -/
def pyLower (s : String) : String :=
  ⟨s.data.map Char.toLower⟩

/-- Python whitespace characters recognised by `str.strip()` (ASCII range). -/
def isPySpace (c : Char) : Bool :=
  c = ' ' || c = '\t' || c = '\n' || c = '\r' || c = '\x0b' || c = '\x0c'

/-- Strip characters satisfying `p` from both ends of a string,
as Python's `str.strip(chars)` does. -/
def pyStripOn (p : Char → Bool) (s : String) : String :=
  ⟨(((s.data.dropWhile p).reverse.dropWhile p).reverse)⟩

/-- Python `str.strip()` (whitespace). -/
def pyStrip (s : String) : String :=
  pyStripOn isPySpace s

/-- Split a character list at every character satisfying `p`, keeping empty
segments (also leading and trailing ones). -/
def splitListOn (p : Char → Bool) : List Char → List (List Char)
  | [] => [[]]
  | c :: rest =>
    if p c then [] :: splitListOn p rest
    else
      match splitListOn p rest with
      | [] => [[c]]
      | seg :: segs => (c :: seg) :: segs

/-- Split on `,` and `;`, keeping empty segments: Python `re.split(r'[,;]', s)`. -/
def splitDelims (s : String) : List String :=
  (splitListOn (fun c => c = ',' || c = ';') s.data).map (fun l => ⟨l⟩)

/-- `CompanyAffiliationFilter.ACADEMIC_KEYWORDS` (filter.py).  The Python
source stores these in a `set`; only membership and `any`-style queries are
performed on it, so a list in source order is a faithful model. -/
def ACADEMIC_KEYWORDS : List String :=
  ["university", "college", "institute", "school", "academy", "laboratory",
   "hospital", "clinic", "medical center", "research center", "dept",
   "department", "faculty"]

/-- `CompanyAffiliationFilter.PHARMA_KEYWORDS` (filter.py). -/
def PHARMA_KEYWORDS : List String :=
  ["pharmaceutical", "pharma", "biotech", "biotechnology", "therapeutics",
   "inc", "ltd", "llc", "corp", "corporation", "gmbh", "co", "company",
   "bioscience", "biopharm", "biopharma", "genomics", "genetics"]

/-- `CompanyAffiliationFilter.KNOWN_COMPANIES` (filter.py).  Python iterates
this `set` to build `found_companies`; the iteration order of a Python set is
implementation-defined, so the claims below only use membership and
emptiness of the resulting list, which are order-independent.  We fix source
order. -/
def KNOWN_COMPANIES : List String :=
  ["pfizer", "merck", "novartis", "roche", "johnson & johnson", "janssen",
   "astrazeneca", "gsk", "glaxosmithkline", "bristol-myers squibb", "bms",
   "sanofi", "abbvie", "eli lilly", "amgen", "gilead", "biogen",
   "celgene", "regeneron", "vertex", "alexion", "alnylam", "moderna",
   "biontech", "curevac", "genentech", "novo nordisk", "takeda",
   "bayer", "boehringer ingelheim", "astellas", "daiichi sankyo",
   "otsuka", "teva", "mylan", "viatris", "fresenius", "hikma"]

/-- The loop body of `CompanyAffiliationFilter._extract_company_names`:
for each segment, strip it, skip it if it contains an academic keyword,
keep it if it contains a pharma keyword. -/
def extractParts : List String → List String
  | [] => []
  | part :: rest =>
    let p := pyStrip part
    if ACADEMIC_KEYWORDS.any (fun k => pyIn k (pyLower p)) then extractParts rest
    else if PHARMA_KEYWORDS.any (fun k => pyIn k (pyLower p)) then
      p :: extractParts rest
    else extractParts rest

/-- `CompanyAffiliationFilter._extract_company_names` (filter.py, lines 135-162). -/
def extract_company_names (affiliation : String) : List String :=
  extractParts (splitDelims affiliation)

/-- `CompanyAffiliationFilter._analyze_affiliation` (filter.py, lines 93-133).
Returns `(is_academic, companies)`. -/
def analyze_affiliation (affiliation : String) : Bool × List String :=
  if affiliation = "" then (true, [])
  else
    let affLower := pyLower affiliation
    let hasAcademicKeyword := ACADEMIC_KEYWORDS.any (fun k => pyIn k affLower)
    let foundCompanies := KNOWN_COMPANIES.filter (fun c => pyIn c affLower)
    let hasPharmaKeyword := PHARMA_KEYWORDS.any (fun k => pyIn k affLower)
    if hasAcademicKeyword && foundCompanies.isEmpty && !hasPharmaKeyword then
      (true, [])
    else if !foundCompanies.isEmpty || hasPharmaKeyword then
      (false, if foundCompanies.isEmpty then extract_company_names affiliation
              else foundCompanies)
    else (true, [])

/-- The extraction fallback as worded by the specification: split the
affiliation on comma/semicolon into segments, discard any segment
containing an academic-indicator term, and keep, whitespace-trimmed, any
remaining segment containing a pharma/biotech generic term. -/
def extractionFallbackSpec (affiliation : String) : List String :=
  ((splitDelims affiliation).map pyStrip).filter
    (fun p => !(ACADEMIC_KEYWORDS.any (fun k => pyIn k (pyLower p))) &&
              PHARMA_KEYWORDS.any (fun k => pyIn k (pyLower p)))

/-- A raw PubMed paper record as produced by `PubMedAPI` and consumed by
`CompanyAffiliationFilter.filter_papers`: the keys `"PubmedID"`, `"Title"`,
`"Publication Date"`, `"Authors"`, `"Affiliations"`,
`"Corresponding Author Emails"` of the Python dict. -/
structure Paper where
  pubmedID : String
  title : String
  publicationDate : String
  authors : List String
  affiliations : List String
  correspondingEmails : List String
  deriving DecidableEq, Repr

/-- A paper after `filter_papers` has augmented it with the three derived
fields `"Non-academic Author(s)"`, `"Company Affiliation(s)"` and
`"Corresponding Author Email"`. -/
structure FilteredPaper extends Paper where
  nonAcademicAuthors : List String
  companyAffiliations : List String
  correspondingAuthorEmail : String
  deriving DecidableEq, Repr

/-- The author/affiliation loop of `filter_papers` (filter.py, lines 62-76):
iterate affiliations with their index `i`, and for each one classified
non-academic with a non-empty company list, record `authors[i]` when the
author list has an entry at `i`, and accumulate the companies.
Returns `(non_academic_authors, company_affiliations)`. -/
def processAffiliations (authors : List String) : Nat → List String → List String × List String
  | _, [] => ([], [])
  | i, aff :: rest =>
    let res := analyze_affiliation aff
    let acc := processAffiliations authors (i + 1) rest
    if !res.1 && !res.2.isEmpty then
      ((if i < authors.length then [authors.getD i ""] else []) ++ acc.1,
       res.2 ++ acc.2)
    else acc

/-- The per-paper body of `filter_papers` (filter.py, lines 62-89): run the
affiliation loop, drop the paper when no non-academic author was recorded,
otherwise augment it with the three derived fields.  Python materialises
`list(set(company_affiliations))`, whose order is implementation-defined;
`List.dedup` has the same membership and distinctness, which is all the
claims use. -/
def filterOne (p : Paper) : Option FilteredPaper :=
  let res := processAffiliations p.authors 0 p.affiliations
  if res.1.isEmpty then none
  else some { toPaper := p,
              nonAcademicAuthors := res.1,
              companyAffiliations := res.2.dedup,
              correspondingAuthorEmail := p.correspondingEmails.headD "" }

/-- `CompanyAffiliationFilter.filter_papers` (filter.py, lines 49-91). -/
def filter_papers (papers : List Paper) : List FilteredPaper :=
  papers.filterMap filterOne

/-- The publication-date composition of `PubMedAPI._parse_xml_response`
(api.py, line 115): `f"{year}-{month}-{day}".strip("-")`. -/
def composePubDate (year month day : String) : String :=
  pyStripOn (fun c => c = '-') (year ++ "-" ++ month ++ "-" ++ day)

mutual
/-- An XML element as exposed by `xml.etree.ElementTree`: tag, attributes,
the `.text` field (text before the first child; `None` when absent, modelled
as `Option.none`) and the child elements in document order.  The children
are given by the mutually defined `XmlForest` so that all traversals below
are structural recursions. -/
inductive XmlNode where
  | elem (tag : String) (attrs : List (String × String)) (text : Option String)
         (children : XmlForest)
inductive XmlForest where
  | nil
  | cons (hd : XmlNode) (tl : XmlForest)
end

/-- Build a forest from a list of nodes. -/
def XmlForest.ofList : List XmlNode → XmlForest
  | [] => .nil
  | c :: cs => .cons c (XmlForest.ofList cs)

/-- The children of a forest as a list. -/
def XmlForest.toList : XmlForest → List XmlNode
  | .nil => []
  | .cons c cs => c :: XmlForest.toList cs

def XmlNode.tag : XmlNode → String
  | .elem t _ _ _ => t

def XmlNode.attrs : XmlNode → List (String × String)
  | .elem _ a _ _ => a

def XmlNode.text : XmlNode → Option String
  | .elem _ _ tx _ => tx

def XmlNode.children : XmlNode → List XmlNode
  | .elem _ _ _ cs => cs.toList

mutual
/- All proper descendants of a node, in document order; and for a forest,
each node followed by its own descendants, in order. -/
def XmlNode.descendants : XmlNode → List XmlNode
  | .elem _ _ _ children => XmlForest.descendantsF children
def XmlForest.descendantsF : XmlForest → List XmlNode
  | .nil => []
  | .cons c rest => c :: (XmlNode.descendants c ++ XmlForest.descendantsF rest)
end

/-- `element.findall(".//Tag")`: every proper descendant with the given tag,
in document order. -/
def XmlNode.findAllDesc (n : XmlNode) (t : String) : List XmlNode :=
  n.descendants.filter (fun c => c.tag = t)

/-- `element.find(".//Tag")`: the first proper descendant with the given tag. -/
def XmlNode.findDesc (n : XmlNode) (t : String) : Option XmlNode :=
  (n.findAllDesc t).head?

/-- `element.findtext("Tag")`: the text of the first direct child with the
given tag — `""` when that child has no text — or `None` when there is no
such child. -/
def XmlNode.findtext (n : XmlNode) (t : String) : Option String :=
  (n.children.find? (fun c => c.tag = t)).map (fun c => c.text.getD "")

/-- `element.findtext("A/B")`: like `findtext`, over the `B` children of the
`A` children, in document order. -/
def XmlNode.findtextPath2 (n : XmlNode) (t1 t2 : String) : Option String :=
  (((n.children.filter (fun c => c.tag = t1)).flatMap
      (fun a => a.children.filter (fun c => c.tag = t2))).head?).map
    (fun c => c.text.getD "")

/-- `element.find(".//A/B")`: the first `B` child of an `A` element lying
anywhere below `n`, in document order. -/
def XmlNode.findDescPath (n : XmlNode) (t1 t2 : String) : Option XmlNode :=
  ((n.descendants.filter (fun c => c.tag = t1)).flatMap
    (fun a => a.children.filter (fun c => c.tag = t2))).head?

/-- `element.get(key)`: attribute lookup. -/
def XmlNode.attrGet (n : XmlNode) (k : String) : Option String :=
  (n.attrs.find? (fun p => p.1 = k)).map (fun p => p.2)

/-!
The corresponding-author email extraction in `PubMedAPI._parse_xml_response`
uses `re.search(r'\b[A-Za-z0-9._%+-]+@[A-Za-z0-9.-]+\.[A-Z|a-z]{2,}\b', text)`.
The next definitions implement that exact pattern: scan start positions left
to right; at a start position, a word boundary, then a maximal greedy run of
the local-part class (no backtracking is needed there because `@` is not in
that class), a literal `@`, then a greedy, backtracking run of the domain
class followed by a literal `.`, at least two characters of `[A-Z|a-z]`
(note the `|` inside the class, as written in the source) and a word
boundary. -/

/-- `\w` for the default (ASCII-relevant) behaviour of Python `re`. -/
def isWordChar (c : Char) : Bool :=
  c.isAlphanum || c = '_'

/-- The class `[A-Za-z0-9._%+-]` (the local part of the email pattern). -/
def isLocalChar (c : Char) : Bool :=
  c.isAlphanum || c = '.' || c = '_' || c = '%' || c = '+' || c = '-'

/-- The class `[A-Za-z0-9.-]` (the domain part of the email pattern). -/
def isDomainChar (c : Char) : Bool :=
  c.isAlphanum || c = '.' || c = '-'

/-- The class `[A-Z|a-z]` (the top-level-domain part; `|` is a literal
member of the class as written in the source). -/
def isTldChar (c : Char) : Bool :=
  c.isAlpha || c = '|'

/-- Is the character at index `i` a word character (`false` out of range)? -/
def isWordAt (l : List Char) (i : Nat) : Bool :=
  ((l.get? i).map isWordChar).getD false

/-- `\b` between indices `i - 1` and `i`. -/
def atBoundary (l : List Char) (i : Nat) : Bool :=
  (if i = 0 then false else isWordAt l (i - 1)) != isWordAt l i

/-- Length of the maximal run of characters satisfying `cls` starting at
index `i`. -/
def runLen (cls : Char → Bool) (l : List Char) (i : Nat) : Nat :=
  ((l.drop i).takeWhile cls).length

/-- Try TLD lengths from `c` down to 2: succeed at the first length whose
end position `s + len` sits on a word boundary, returning that end. -/
def tryTld (l : List Char) (s : Nat) : Nat → Option Nat
  | 0 => none
  | 1 => none
  | c + 2 =>
    if atBoundary l (s + (c + 2)) then some (s + (c + 2))
    else tryTld l s (c + 1)

/-- Try domain-run lengths from `b` down to 1 (greedy with backtracking):
the domain occupies `[j + 1, j + 1 + b)`, then a literal `.` must follow,
then the TLD. Returns the end index of the whole match. -/
def tryDomain (l : List Char) (j : Nat) : Nat → Option Nat
  | 0 => none
  | b + 1 =>
    let dot := j + 1 + (b + 1)
    if l.get? dot = some '.' then
      match tryTld l (dot + 1) (runLen isTldChar l (dot + 1)) with
      | some e => some e
      | none => tryDomain l j b
    else tryDomain l j b

/-- Attempt to match the email pattern anchored at index `i`; returns the
end index of the match. -/
def emailMatchAt (l : List Char) (i : Nat) : Option Nat :=
  if atBoundary l i then
    let aLen := runLen isLocalChar l i
    if aLen = 0 then none
    else
      let j := i + aLen
      if l.get? j = some '@' then tryDomain l j (runLen isDomainChar l (j + 1))
      else none
  else none

/-- `re.search(...)...group()`: the leftmost match of the email pattern,
or `None`. -/
def searchEmail (s : String) : Option String :=
  let l := s.data
  (List.range (l.length + 1)).findSome? fun i =>
    (emailMatchAt l i).map fun e => ⟨(l.drop i).take (e - i)⟩

/-- A paper dict as built by `PubMedAPI._parse_xml_response`.  The Python
code stores `pmid_elem.text` / `title_elem.text` directly, which can be
`None` when the element is present but has no text; these two fields are
therefore `Option String` (`none` = Python `None`). -/
structure ParsedPaper where
  pubmedID : Option String
  title : Option String
  publicationDate : String
  authors : List String
  affiliations : List String
  correspondingEmails : List String
  deriving DecidableEq, Repr

/-- The per-author email extraction of `_parse_xml_response` (api.py, lines
137-148).  When the author is flagged `Corresponding="Y"`, the code reads
`email_elem.text` and evaluates `"@" in email_text`; when that text is
`None` this raises `TypeError`, modelled as `Except.error`. -/
def authorEmails (author : XmlNode) : Except String (List String) :=
  if author.attrGet "Corresponding" = some "Y" then
    match author.findDescPath "AffiliationInfo" "Affiliation" with
    | some emailElem =>
      match emailElem.text with
      | none => .error "TypeError: argument of type 'NoneType' is not iterable"
      | some emailText =>
        if pyIn "@" emailText then
          match searchEmail emailText with
          | some em => .ok [em]
          | none => .ok []
        else .ok []
    | none => .ok []
  else .ok []

/-- The author loop of `_parse_xml_response` (api.py, lines 124-148):
returns `(authors, affiliations, corresponding_emails)`, or the first
exception raised. -/
def parseAuthors : List XmlNode → Except String (List String × List String × List String)
  | [] => .ok ([], [], [])
  | author :: rest => do
    let lastName := (author.findtext "LastName").getD ""
    let foreName := (author.findtext "ForeName").getD ""
    let fullName := pyStrip (foreName ++ " " ++ lastName)
    let affiliation := (author.findtextPath2 "AffiliationInfo" "Affiliation").getD ""
    let ems ← authorEmails author
    let (restAuthors, restAffs, restEms) ← parseAuthors rest
    .ok ((if fullName ≠ "" then [fullName] else []) ++ restAuthors,
         (if affiliation ≠ "" then [affiliation] else []) ++ restAffs,
         ems ++ restEms)

/-- The per-article body of `_parse_xml_response` (api.py, lines 98-154). -/
def parseArticle (article : XmlNode) : Except String ParsedPaper := do
  let pubmedID : Option String :=
    match article.findDesc "PMID" with
    | some e => e.text
    | none => some ""
  let title : Option String :=
    match article.findDesc "ArticleTitle" with
    | some e => e.text
    | none => some ""
  let pubDate : String :=
    match article.findDesc "PubDate" with
    | some pd =>
      composePubDate ((pd.findtext "Year").getD "") ((pd.findtext "Month").getD "")
        ((pd.findtext "Day").getD "")
    | none => ""
  let (authors, affiliations, emails) ← parseAuthors (article.findAllDesc "Author")
  .ok { pubmedID := pubmedID, title := title, publicationDate := pubDate,
        authors := authors, affiliations := affiliations,
        correspondingEmails := emails }

/-- The article loop of `_parse_xml_response`: the articles are the
`.//PubmedArticle` descendants of the root, processed in order; the first
exception aborts the whole parse. -/
def parseArticles : List XmlNode → Except String (List ParsedPaper)
  | [] => .ok []
  | a :: rest => do
    let p ← parseArticle a
    let ps ← parseArticles rest
    .ok (p :: ps)

/-- `PubMedAPI._parse_xml_response` (api.py, lines 85-156), taking the root
element of the already-parsed XML document. -/
def parse_xml_response (root : XmlNode) : Except String (List ParsedPaper) :=
  parseArticles (root.findAllDesc "PubmedArticle")

/-- An HTTP GET request as issued through `requests.get(url, params)`. -/
structure HttpRequest where
  url : String
  params : List (String × String)
  deriving DecidableEq, Repr

/-- `PubMedAPI.BASE_URL` (api.py). -/
def BASE_URL : String := "https://eutils.ncbi.nlm.nih.gov/entrez/eutils/"

/-- `PubMedAPI.fetch_details` (api.py, lines 57-83).  The HTTP transport and
the `ElementTree.fromstring` step are abstracted as an oracle `net` mapping
the issued request to either a transport/parse failure or the root element
of the response document.  The first component of the result is the list of
requests actually issued, so that "no network call" is expressible. -/
def fetch_details (net : HttpRequest → Except String XmlNode)
    (apiKey : Option String) (pmids : List String) :
    List HttpRequest × Except String (List ParsedPaper) :=
  if pmids.isEmpty then ([], .ok [])
  else
    let params := [("db", "pubmed"), ("id", String.intercalate "," pmids),
                   ("retmode", "xml")] ++
      (match apiKey with
       | some k => [("api_key", k)]
       | none => [])
    let req : HttpRequest := { url := BASE_URL ++ "efetch.fcgi", params := params }
    ([req],
     match net req with
     | .error e => .error e
     | .ok root => parse_xml_response root)

/-- Where a CSV rendering is delivered. -/
inductive CsvSink where
  | file (name : String)
  | stdout
  deriving DecidableEq, Repr

/-- The observable effect of one `write_to_csv` call: the warnings logged
and the rendered table (header row first), if any, with its sink. -/
structure CsvEffect where
  warnings : List String
  written : Option (CsvSink × List (List String))
  deriving DecidableEq, Repr

/-- The CSV column headers of `CSVOutputHandler.write_to_csv` (output.py). -/
def CSV_FIELDNAMES : List String :=
  ["PubmedID", "Title", "Publication Date", "Non-academic Author(s)",
   "Company Affiliation(s)", "Corresponding Author Email"]

/-- One data row of `write_to_csv` (output.py, lines 49-58): multi-valued
fields are joined with a `"; "` separator. -/
def paperRow (p : FilteredPaper) : List String :=
  [p.pubmedID, p.title, p.publicationDate,
   String.intercalate "; " p.nonAcademicAuthors,
   String.intercalate "; " p.companyAffiliations,
   p.correspondingAuthorEmail]

/-- `CSVOutputHandler.write_to_csv` (output.py, lines 25-71): on an empty
paper list it logs a warning and returns without writing anything at all;
otherwise it renders the header and one row per paper, to the named file
when given, else to standard output. -/
def write_to_csv (papers : List FilteredPaper) (filename : Option String) : CsvEffect :=
  if papers.isEmpty then
    { warnings := ["No papers to write to CSV"], written := none }
  else
    let rows := papers.map paperRow
    match filename with
    | some f => { warnings := [], written := some (.file f, CSV_FIELDNAMES :: rows) }
    | none => { warnings := [], written := some (.stdout, CSV_FIELDNAMES :: rows) }

/-- A well-formed response document in which the single article's
corresponding author has an `AffiliationInfo/Affiliation` element that is
present but has no text content (`<Affiliation/>`). -/
def xmlCrashRoot : XmlNode :=
  .elem "PubmedArticleSet" [] none (.ofList
    [.elem "PubmedArticle" [] none (.ofList
      [.elem "MedlineCitation" [] none (.ofList
        [.elem "PMID" [] (some "1") .nil,
         .elem "Article" [] none (.ofList
           [.elem "ArticleTitle" [] (some "T") .nil,
            .elem "AuthorList" [] none (.ofList
              [.elem "Author" [("Corresponding", "Y")] none (.ofList
                [.elem "LastName" [] (some "Doe") .nil,
                 .elem "AffiliationInfo" [] none (.ofList
                   [.elem "Affiliation" [] none .nil])])])])])])])

/-- A fully populated well-formed response document with two authors, the
first of whom is the corresponding author with an email in their
affiliation text. -/
def xmlOkRoot : XmlNode :=
  .elem "PubmedArticleSet" [] none (.ofList
    [.elem "PubmedArticle" [] none (.ofList
      [.elem "MedlineCitation" [] none (.ofList
        [.elem "PMID" [] (some "1") .nil,
         .elem "Article" [] none (.ofList
           [.elem "ArticleTitle" [] (some "T") .nil,
            .elem "Journal" [] none (.ofList
              [.elem "JournalIssue" [] none (.ofList
                [.elem "PubDate" [] none (.ofList
                  [.elem "Year" [] (some "2020") .nil,
                   .elem "Day" [] (some "05") .nil])])]),
            .elem "AuthorList" [] none (.ofList
              [.elem "Author" [("Corresponding", "Y")] none (.ofList
                [.elem "LastName" [] (some "Doe") .nil,
                 .elem "ForeName" [] (some "Jane") .nil,
                 .elem "AffiliationInfo" [] none (.ofList
                   [.elem "Affiliation" [] (some "Pfizer Inc. jane@pfizer.com") .nil])]),
               .elem "Author" [] none (.ofList
                [.elem "LastName" [] (some "Roe") .nil,
                 .elem "AffiliationInfo" [] none (.ofList
                   [.elem "Affiliation" [] (some "Harvard University") .nil])])])])])])])


/-- A paper whose only affiliation is a company one, but whose author list
is empty, so no author entry exists at that affiliation's position. -/
def paperNoAuthor : Paper :=
  { pubmedID := "2", title := "No author entry", publicationDate := "2021",
    authors := [], affiliations := ["Pfizer Inc"], correspondingEmails := [] }

/-- A paper with two authors sharing the same company affiliation. -/
def paperSharedCompany : Paper :=
  { pubmedID := "1", title := "Shared company", publicationDate := "2020",
    authors := ["A", "B"], affiliations := ["Pfizer Inc", "Pfizer Inc"],
    correspondingEmails := [] }

/-- The record `filter_papers` produces for `paperSharedCompany`. -/
def filteredSharedCompany : FilteredPaper :=
  { toPaper := paperSharedCompany, nonAcademicAuthors := ["A", "B"],
    companyAffiliations := ["pfizer"], correspondingAuthorEmail := "" }

/-- C10: the affiliation string `"College"` consists of a single
academic-institution word (it matches the academic keyword `"college"` and
no known-company name), yet classification returns non-academic with an
empty company list, because the pharma keyword `"co"` matches as a raw
substring inside `"college"`, defeating rule 1, and the extraction fallback
then discards the only segment as academic. -/
theorem c10_college_misclassified :
    ACADEMIC_KEYWORDS.any (fun k => pyIn k (pyLower "College")) = true ∧
    KNOWN_COMPANIES.any (fun c => pyIn c (pyLower "College")) = false ∧
    "co" ∈ PHARMA_KEYWORDS ∧ pyIn "co" (pyLower "College") = true ∧
    analyze_affiliation "College" = (false, []) := by
  refine ⟨by decide, by decide, by decide, by decide, by decide⟩

/-- C9: writing an empty paper sequence emits exactly the diagnostic
warning and writes nothing: no file, no printed rows, not even a header. -/
theorem c9_write_empty_no_output (filename : Option String) :
    write_to_csv [] filename =
      { warnings := ["No papers to write to CSV"], written := none } := by
  rfl

/-- C8: fetching details for the empty identifier sequence returns the
empty paper sequence and issues no HTTP request, whatever the transport
would answer and whether or not an API key is configured. -/
theorem c8_fetch_empty_no_request (net : HttpRequest → Except String XmlNode)
    (apiKey : Option String) :
    fetch_details net apiKey [] = ([], .ok []) := by
  rfl

/-- C3: the parser is not exception-free on well-formed responses: on a
document whose corresponding author has an `Affiliation` element that is
present but has no text content, the expression `"@" in email_text`
evaluates with `email_text = None` and parsing raises `TypeError` instead
of substituting an empty default. -/
theorem c3_parse_crash_on_textless_affiliation :
    parse_xml_response xmlCrashRoot =
      .error "TypeError: argument of type 'NoneType' is not iterable" := by
  rfl

/-- C2 counterexample: with the year and day present but the month missing,
`f"{year}-{month}-{day}".strip("-")` leaves the internal empty component in
place: the composed date is `"2020--05"`, which still contains `"--"`. -/
theorem c2_counterexample :
    composePubDate "2020" "" "05" = "2020--05" ∧
    pyIn "--" (composePubDate "2020" "" "05") = true := by
  refine ⟨by rfl, by rfl⟩

/-- C1 counterexample: `paperNoAuthor`'s single affiliation classifies as
non-academic with a non-empty company list, yet the paper does not appear
in the output of `filter_papers`, because the affiliation's position has no
corresponding entry in the (empty) author list. -/
theorem c1_counterexample :
    (analyze_affiliation "Pfizer Inc").1 = false ∧
    (analyze_affiliation "Pfizer Inc").2 ≠ [] ∧
    paperNoAuthor.affiliations = ["Pfizer Inc"] ∧
    filter_papers [paperNoAuthor] = [] := by
  refine ⟨by rfl, by decide, by rfl, by rfl⟩

/-- C7: every paper retained by `filter_papers` carries a
company-affiliation list with no repeated entries. -/
theorem c7_company_dedup (papers : List Paper) (fp : FilteredPaper)
    (h : fp ∈ filter_papers papers) : fp.companyAffiliations.Nodup := by
  rcases List.mem_filterMap.mp h with ⟨p, _, hp⟩
  by_cases he : (processAffiliations p.authors 0 p.affiliations).1.isEmpty
  · simp [filterOne, he] at hp
  · simp only [filterOne, he] at hp
    cases hp
    exact List.nodup_dedup _

/-- C7 witness: both authors of `paperSharedCompany` share the company
`"pfizer"`, and the retained record's company list is duplicate-free. -/
theorem c7_witness :
    filteredSharedCompany ∈ filter_papers [paperSharedCompany] ∧
    filteredSharedCompany.companyAffiliations.Nodup :=
  ⟨by decide, c7_company_dedup [paperSharedCompany] filteredSharedCompany (by decide)⟩

/-- `pyIn` into the empty string succeeds only for the empty needle. -/
lemma pyIn_empty_hay (n : String) : pyIn n "" = n.data.isEmpty := rfl

/-- A string with an empty character list is the empty string. -/
lemma eq_empty_of_data_eq_nil {s : String} (h : s.data = []) : s = "" := by
  cases s with
  | mk d => cases h; rfl

/-- The extraction loop agrees with the split-discard-keep description. -/
lemma extractParts_eq_filter (parts : List String) :
    extractParts parts =
      (parts.map pyStrip).filter
        (fun p => !(ACADEMIC_KEYWORDS.any (fun k => pyIn k (pyLower p))) &&
                  PHARMA_KEYWORDS.any (fun k => pyIn k (pyLower p))) := by
  induction parts with
  | nil => rfl
  | cons part rest ih =>
    cases h1 : ACADEMIC_KEYWORDS.any (fun k => pyIn k (pyLower (pyStrip part))) with
    | true => simp [extractParts, h1, ih]
    | false =>
      cases h2 : PHARMA_KEYWORDS.any (fun k => pyIn k (pyLower (pyStrip part))) with
      | true => simp [extractParts, h1, h2, ih]
      | false => simp [extractParts, h1, h2, ih]

/-- `_extract_company_names` computes exactly the specified fallback. -/
lemma extract_eq_spec (aff : String) :
    extract_company_names aff = extractionFallbackSpec aff :=
  extractParts_eq_filter (splitDelims aff)

/-- C4: an affiliation that contains an academic-indicator term and, under
case-insensitive substring matching, no known-company name and no
pharma/biotech generic term, classifies as academic with an empty company
list. -/
theorem c4_academic_classification (aff : String)
    (hA : ACADEMIC_KEYWORDS.any (fun k => pyIn k (pyLower aff)) = true)
    (hK : KNOWN_COMPANIES.any (fun c => pyIn c (pyLower aff)) = false)
    (hP : PHARMA_KEYWORDS.any (fun k => pyIn k (pyLower aff)) = false) :
    analyze_affiliation aff = (true, []) := by
  by_cases haff : aff = ""
  · simp [analyze_affiliation, haff]
  · have hfilter : KNOWN_COMPANIES.filter (fun c => pyIn c (pyLower aff)) = [] :=
      List.filter_eq_nil_iff.mpr (fun a ha => by simpa using List.any_eq_false.mp hK a ha)
    simp [analyze_affiliation, haff, hA, hP, hfilter]

/-- C4 witness: `"Harvard University"` satisfies the three hypotheses and is
classified academic with no companies. -/
theorem c4_witness :
    ACADEMIC_KEYWORDS.any (fun k => pyIn k (pyLower "Harvard University")) = true ∧
    KNOWN_COMPANIES.any (fun c => pyIn c (pyLower "Harvard University")) = false ∧
    PHARMA_KEYWORDS.any (fun k => pyIn k (pyLower "Harvard University")) = false ∧
    analyze_affiliation "Harvard University" = (true, []) :=
  ⟨by decide, by decide, by decide,
   c4_academic_classification "Harvard University" (by decide) (by decide) (by decide)⟩

/-- C5: an affiliation containing, case-insensitively, a known-company name
classifies as non-academic, and the company list contains that name. -/
theorem c5_known_company (aff c : String) (hc : c ∈ KNOWN_COMPANIES)
    (h : pyIn c (pyLower aff) = true) :
    (analyze_affiliation aff).1 = false ∧ c ∈ (analyze_affiliation aff).2 := by
  have hcne : c ≠ "" := by
    intro h0
    subst h0
    revert hc
    decide
  have haff : aff ≠ "" := by
    intro h0
    subst h0
    rw [show pyLower "" = "" from rfl, pyIn_empty_hay] at h
    exact hcne (eq_empty_of_data_eq_nil (List.isEmpty_iff.mp h))
  have hmem : c ∈ KNOWN_COMPANIES.filter (fun x => pyIn x (pyLower aff)) :=
    List.mem_filter.mpr ⟨hc, h⟩
  have hie : (KNOWN_COMPANIES.filter (fun x => pyIn x (pyLower aff))).isEmpty = false := by
    cases hfe : (KNOWN_COMPANIES.filter (fun x => pyIn x (pyLower aff))).isEmpty with
    | false => rfl
    | true => rw [List.isEmpty_iff.mp hfe] at hmem; cases hmem
  have h1 : analyze_affiliation aff =
      (false, KNOWN_COMPANIES.filter (fun x => pyIn x (pyLower aff))) := by
    simp [analyze_affiliation, haff, hie]
  rw [h1]
  exact ⟨rfl, hmem⟩

/-- C5 witness: `"Pfizer Inc, New York, NY"` contains the known company
`"pfizer"` and is classified non-academic with `"pfizer"` reported. -/
theorem c5_witness :
    "pfizer" ∈ KNOWN_COMPANIES ∧
    pyIn "pfizer" (pyLower "Pfizer Inc, New York, NY") = true ∧
    ((analyze_affiliation "Pfizer Inc, New York, NY").1 = false ∧
     "pfizer" ∈ (analyze_affiliation "Pfizer Inc, New York, NY").2) :=
  ⟨by decide, by decide,
   c5_known_company "Pfizer Inc, New York, NY" "pfizer" (by decide) (by decide)⟩

/-- C6: when an affiliation classifies as non-academic and no known-company
name matched, the returned company list is the result of
`_extract_company_names`, which equals the specified split-discard-keep
fallback (split on comma/semicolon, drop segments with an academic term,
keep trimmed segments with a pharma term); the result may be empty. -/
theorem c6_extraction_fallback (aff : String)
    (hK : KNOWN_COMPANIES.any (fun c => pyIn c (pyLower aff)) = false)
    (hNA : (analyze_affiliation aff).1 = false) :
    (analyze_affiliation aff).2 = extract_company_names aff ∧
    extract_company_names aff = extractionFallbackSpec aff := by
  have haff : aff ≠ "" := by
    intro h0
    rw [h0] at hNA
    simp [analyze_affiliation] at hNA
  have hfilter : KNOWN_COMPANIES.filter (fun c => pyIn c (pyLower aff)) = [] :=
    List.filter_eq_nil_iff.mpr (fun a ha => by simpa using List.any_eq_false.mp hK a ha)
  cases hP : PHARMA_KEYWORDS.any (fun k => pyIn k (pyLower aff)) with
  | true =>
    have h1 : analyze_affiliation aff = (false, extract_company_names aff) := by
      simp [analyze_affiliation, haff, hfilter, hP]
    rw [h1]
    exact ⟨rfl, extract_eq_spec aff⟩
  | false =>
    exfalso
    cases hAcad : ACADEMIC_KEYWORDS.any (fun k => pyIn k (pyLower aff)) with
    | true => simp [analyze_affiliation, haff, hfilter, hP, hAcad] at hNA
    | false => simp [analyze_affiliation, haff, hfilter, hP, hAcad] at hNA

/-- C6 witness: `"Acme Therapeutics, Boston"` matches no known company,
classifies non-academic, and the fallback keeps exactly the segment
`"Acme Therapeutics"`. -/
theorem c6_witness :
    KNOWN_COMPANIES.any (fun c => pyIn c (pyLower "Acme Therapeutics, Boston")) = false ∧
    (analyze_affiliation "Acme Therapeutics, Boston").1 = false ∧
    ((analyze_affiliation "Acme Therapeutics, Boston").2 =
       extract_company_names "Acme Therapeutics, Boston" ∧
     extract_company_names "Acme Therapeutics, Boston" =
       extractionFallbackSpec "Acme Therapeutics, Boston") :=
  ⟨by decide, by decide,
   c6_extraction_fallback "Acme Therapeutics, Boston" (by decide) (by decide)⟩

/-- Position `j` of the affiliation list qualifies inside the loop started
at offset `i`: the affiliation classifies non-academic with a non-empty
company list and the author list has an entry at `i + j`. -/
lemma processAffiliations_fst_ne_nil (authors : List String) :
    ∀ (affs : List String) (i : Nat),
      (processAffiliations authors i affs).1 ≠ [] ↔
      ∃ j, j < affs.length ∧ i + j < authors.length ∧
        (analyze_affiliation (affs.getD j "")).1 = false ∧
        (analyze_affiliation (affs.getD j "")).2 ≠ [] := by
  intro affs
  induction affs with
  | nil => intro i; simp [processAffiliations]
  | cons aff rest ih =>
    intro i
    cases hcond : (!(analyze_affiliation aff).1 && !(analyze_affiliation aff).2.isEmpty) with
    | true =>
      have hand := Bool.and_eq_true_iff.mp hcond
      have hc1 : (analyze_affiliation aff).1 = false := by
        simpa using hand.1
      have hc2 : (analyze_affiliation aff).2 ≠ [] := by
        have h2 := hand.2
        intro h0
        rw [h0] at h2
        simp at h2
      rw [show processAffiliations authors i (aff :: rest) =
            ((if i < authors.length then [authors.getD i ""] else []) ++
              (processAffiliations authors (i + 1) rest).1,
             (analyze_affiliation aff).2 ++ (processAffiliations authors (i + 1) rest).2) by
        simp [processAffiliations, hcond]]
      constructor
      · intro hne
        by_cases hi : i < authors.length
        · exact ⟨0, by simp, by simpa using hi, by simpa using hc1, by simpa using hc2⟩
        · have hrest : (processAffiliations authors (i + 1) rest).1 ≠ [] := by
            intro h0
            apply hne
            simp [hi, h0]
          rcases (ih (i + 1)).mp hrest with ⟨k, hk, hka, hk1, hk2⟩
          refine ⟨k + 1, ?_, ?_, by simpa using hk1, by simpa using hk2⟩
          · simp only [List.length_cons]
            omega
          · omega
      · rintro ⟨j, hj, hja, hj1, hj2⟩
        simp only [List.length_cons] at hj
        cases j with
        | zero =>
          have hi : i < authors.length := by omega
          simp [hi]
        | succ k =>
          have hrest : (processAffiliations authors (i + 1) rest).1 ≠ [] := by
            refine (ih (i + 1)).mpr ⟨k, by omega, by omega, ?_, ?_⟩
            · simpa using hj1
            · simpa using hj2
          intro h0
          rcases List.append_eq_nil.mp h0 with ⟨-, h0r⟩
          exact hrest h0r
    | false =>
      have hnc : ¬((analyze_affiliation aff).1 = false ∧
          (analyze_affiliation aff).2 ≠ []) := by
        rintro ⟨h1, h2⟩
        rw [Bool.and_eq_false_iff] at hcond
        rcases hcond with hl | hr
        · rw [h1] at hl
          simp at hl
        · rw [Bool.not_eq_false', List.isEmpty_iff] at hr
          exact h2 hr
      rw [show processAffiliations authors i (aff :: rest) =
            processAffiliations authors (i + 1) rest by
        simp [processAffiliations, hcond]]
      rw [ih (i + 1)]
      constructor
      · rintro ⟨k, hk, hka, hk1, hk2⟩
        refine ⟨k + 1, ?_, ?_, by simpa using hk1, by simpa using hk2⟩
        · simp only [List.length_cons]
          omega
        · omega
      · rintro ⟨j, hj, hja, hj1, hj2⟩
        simp only [List.length_cons] at hj
        cases j with
        | zero =>
          exact absurd ⟨by simpa using hj1, by simpa using hj2⟩ hnc
        | succ k =>
          exact ⟨k, by omega, by omega, by simpa using hj1, by simpa using hj2⟩

/-- `filterOne` preserves the underlying paper unchanged. -/
lemma filterOne_toPaper (p : Paper) (fp : FilteredPaper) (h : filterOne p = some fp) :
    fp.toPaper = p := by
  by_cases he : (processAffiliations p.authors 0 p.affiliations).1.isEmpty
  · simp [filterOne, he] at h
  · simp only [filterOne, he] at h
    cases h
    rfl

/-- `filterOne` retains a paper exactly when the loop recorded a
non-academic author. -/
lemma filterOne_isSome_iff (p : Paper) :
    (filterOne p).isSome = true ↔
    (processAffiliations p.authors 0 p.affiliations).1 ≠ [] := by
  by_cases he : (processAffiliations p.authors 0 p.affiliations).1.isEmpty
  · simp [filterOne, he, List.isEmpty_iff.mp he]
  · have hne : (processAffiliations p.authors 0 p.affiliations).1 ≠ [] := by
      intro h0
      exact he (by simp [h0])
    simp [filterOne, he, hne]

/-- C1 (amended): a paper appears in the output of `filter_papers` iff at
least one of its affiliations, at a position that also has a corresponding
entry in the paper's author list, classifies as non-academic with a
non-empty company list.  (An affiliation position beyond the end of the
author list contributes companies but no author, and alone does not retain
the paper.) -/
theorem c1_filter_inclusion_amended (papers : List Paper) (p : Paper)
    (hp : p ∈ papers) :
    (∃ fp, fp ∈ filter_papers papers ∧ fp.toPaper = p) ↔
    (∃ j, j < p.affiliations.length ∧ j < p.authors.length ∧
      (analyze_affiliation (p.affiliations.getD j "")).1 = false ∧
      (analyze_affiliation (p.affiliations.getD j "")).2 ≠ []) := by
  constructor
  · rintro ⟨fp, hmem, htp⟩
    rcases List.mem_filterMap.mp hmem with ⟨q, hq, hfq⟩
    have hqp : q = p := by
      rw [← htp, filterOne_toPaper q fp hfq]
    subst hqp
    have hne : (processAffiliations q.authors 0 q.affiliations).1 ≠ [] :=
      (filterOne_isSome_iff q).mp (by rw [hfq]; rfl)
    rcases (processAffiliations_fst_ne_nil q.authors q.affiliations 0).mp hne with
      ⟨j, hj, hja, hj1, hj2⟩
    exact ⟨j, hj, by omega, hj1, hj2⟩
  · rintro ⟨j, hj, hja, hj1, hj2⟩
    have hne : (processAffiliations p.authors 0 p.affiliations).1 ≠ [] :=
      (processAffiliations_fst_ne_nil p.authors p.affiliations 0).mpr
        ⟨j, hj, by omega, hj1, hj2⟩
    have hsome := (filterOne_isSome_iff p).mpr hne
    rcases Option.isSome_iff_exists.mp hsome with ⟨fp₀, hfp₀⟩
    exact ⟨fp₀, List.mem_filterMap.mpr ⟨p, hp, hfp₀⟩, filterOne_toPaper p fp₀ hfp₀⟩

/-- C1 witness: for `paperSharedCompany` inside a singleton input list, both
sides of the amended equivalence hold — position 0 qualifies and the paper
appears in the output. -/
theorem c1_witness :
    paperSharedCompany ∈ [paperSharedCompany] ∧
    ((∃ fp, fp ∈ filter_papers [paperSharedCompany] ∧ fp.toPaper = paperSharedCompany) ↔
     (∃ j, j < paperSharedCompany.affiliations.length ∧
        j < paperSharedCompany.authors.length ∧
        (analyze_affiliation (paperSharedCompany.affiliations.getD j "")).1 = false ∧
        (analyze_affiliation (paperSharedCompany.affiliations.getD j "")).2 ≠ [])) :=
  ⟨by decide,
   c1_filter_inclusion_amended [paperSharedCompany] paperSharedCompany (by decide)⟩

/-- Dropping a while-prefix skips over a block whose members all satisfy
the predicate. -/
lemma dropWhile_append_of_all {p : Char → Bool} {A B : List Char}
    (h : ∀ a ∈ A, p a = true) : (A ++ B).dropWhile p = B.dropWhile p := by
  induction A with
  | nil => rfl
  | cons a t ih =>
    rw [List.cons_append, List.dropWhile_cons, if_pos (h a (by simp))]
    exact ih (fun x hx => h x (by simp [hx]))

/-- Two-sided stripping of `l ++ m` returns `l` when `l` is non-empty, its
first and last characters do not satisfy `p`, and all of `m` does. -/
lemma stripOn_append_trailing {p : Char → Bool} {l m : List Char}
    (hl : l ≠ [])
    (hfront : ∀ c, l.head? = some c → p c = false)
    (hback : ∀ c, l.getLast? = some c → p c = false)
    (hm : ∀ c ∈ m, p c = true) :
    (((l ++ m).dropWhile p).reverse.dropWhile p).reverse = l := by
  obtain ⟨c, t, rfl⟩ := List.exists_cons_of_ne_nil hl
  rw [List.cons_append, List.dropWhile_cons, if_neg (by simp [hfront c rfl])]
  rw [show (c :: (t ++ m) : List Char).reverse = m.reverse ++ (c :: t).reverse by simp]
  rw [dropWhile_append_of_all (fun a ha => hm a (by simpa using ha))]
  have hrevne : (c :: t).reverse ≠ [] := by simp
  obtain ⟨e, r, her⟩ := List.exists_cons_of_ne_nil hrevne
  have helast : (c :: t).getLast? = some e := by
    rw [← List.head?_reverse, her]
    rfl
  rw [her, List.dropWhile_cons, if_neg (by simp [hback e helast]), ← her,
    List.reverse_reverse]

/-- Two-sided stripping leaves a list alone when its first and last
characters do not satisfy the predicate. -/
lemma stripOn_id {p : Char → Bool} {l : List Char}
    (hl : l ≠ [])
    (hfront : ∀ c, l.head? = some c → p c = false)
    (hback : ∀ c, l.getLast? = some c → p c = false) :
    ((l.dropWhile p).reverse.dropWhile p).reverse = l := by
  have h := stripOn_append_trailing (p := p) (m := []) hl hfront hback (by simp)
  simpa using h

/-- A non-empty string has a non-empty character list. -/
lemma data_ne_nil {s : String} (h : s ≠ "") : s.data ≠ [] :=
  fun h0 => h (eq_empty_of_data_eq_nil h0)

/-- Strings with equal character lists are equal. -/
lemma string_eq_of_data {a b : String} (h : a.data = b.data) : a = b := by
  cases a
  cases b
  simp_all

/-- The head of a list starting with a dash-free string is not a dash. -/
lemma front_not_dash {y : String} (hy : '-' ∉ y.data) (hyne : y ≠ "")
    (R : List Char) :
    ∀ c, (y.data ++ R).head? = some c → decide (c = '-') = false := by
  intro c hc
  obtain ⟨cy, ty, hy'⟩ := List.exists_cons_of_ne_nil (data_ne_nil hyne)
  rw [hy', List.cons_append] at hc
  have hcy : c = cy := by
    simpa using hc.symm
  subst hcy
  have hmem : c ∈ y.data := by
    rw [hy']
    exact List.mem_cons_self c ty
  simp only [decide_eq_false_iff_not]
  exact fun h => hy (h ▸ hmem)

/-- The last element of a list ending in a dash-free non-empty string is not
a dash. -/
lemma back_not_dash {z : String} (hz : '-' ∉ z.data) (hzne : z ≠ "")
    (L : List Char) :
    ∀ c, (L ++ z.data).getLast? = some c → decide (c = '-') = false := by
  intro c hc
  rw [List.getLast?_append,
    List.getLast?_eq_getLast_of_ne_nil (data_ne_nil hzne)] at hc
  have hcz : c = (z.data).getLast (data_ne_nil hzne) := by
    simpa [Option.or] using hc.symm
  have hmem : c ∈ z.data := hcz ▸ List.getLast_mem (data_ne_nil hzne)
  simp only [decide_eq_false_iff_not]
  exact fun h => hz (h ▸ hmem)

/-- C2 (amended): the publication date is composed by joining year, month
and day with `-` and trimming `-` characters from both ends only.  Missing
trailing components therefore disappear together with their separators, but
a missing month between a present year and day leaves the internal empty
component: the string is `year ++ "--" ++ day`. -/
theorem c2_pub_date_amended (y m d : String)
    (hy : '-' ∉ y.data) (hm : '-' ∉ m.data) (hd : '-' ∉ d.data) :
    (y ≠ "" → m ≠ "" → d ≠ "" →
       composePubDate y m d = y ++ "-" ++ m ++ "-" ++ d) ∧
    (y ≠ "" → m ≠ "" → composePubDate y m "" = y ++ "-" ++ m) ∧
    (y ≠ "" → composePubDate y "" "" = y) ∧
    (y ≠ "" → d ≠ "" → composePubDate y "" d = y ++ "--" ++ d) := by
  refine ⟨?_, ?_, ?_, ?_⟩
  · intro hyne hmne hdne
    apply string_eq_of_data
    show (((y ++ "-" ++ m ++ "-" ++ d).data.dropWhile _).reverse.dropWhile _).reverse
        = (y ++ "-" ++ m ++ "-" ++ d).data
    have hS : (y ++ "-" ++ m ++ "-" ++ d).data
        = y.data ++ ('-' :: m.data ++ '-' :: d.data) := by
      simp [String.data_append]
    rw [hS]
    refine stripOn_id (by simp [data_ne_nil hyne]) ?_ ?_
    · exact front_not_dash hy hyne _
    · intro c hc
      refine back_not_dash hd hdne (y.data ++ ('-' :: m.data ++ ['-'])) c ?_
      rw [← hc]
      congr 1
      simp
  · intro hyne hmne
    apply string_eq_of_data
    show (((y ++ "-" ++ m ++ "-" ++ "").data.dropWhile _).reverse.dropWhile _).reverse
        = (y ++ "-" ++ m).data
    have hS : (y ++ "-" ++ m ++ "-" ++ "").data
        = (y.data ++ '-' :: m.data) ++ ['-'] := by
      simp [String.data_append]
    have hT : (y ++ "-" ++ m).data = y.data ++ '-' :: m.data := by
      simp [String.data_append]
    rw [hS, hT]
    refine stripOn_append_trailing (by simp [data_ne_nil hyne]) ?_ ?_ (by simp)
    · exact front_not_dash hy hyne _
    · intro c hc
      refine back_not_dash hm hmne (y.data ++ ['-']) c ?_
      rw [← hc]
      congr 1
  · intro hyne
    apply string_eq_of_data
    show (((y ++ "-" ++ "" ++ "-" ++ "").data.dropWhile _).reverse.dropWhile _).reverse
        = y.data
    have hS : (y ++ "-" ++ "" ++ "-" ++ "").data = y.data ++ ['-', '-'] := by
      simp [String.data_append]
    rw [hS]
    refine stripOn_append_trailing (data_ne_nil hyne) ?_ ?_ (by simp)
    · intro c hc
      refine front_not_dash hy hyne [] c ?_
      simpa using hc
    · intro c hc
      refine back_not_dash hy hyne [] c ?_
      simpa using hc
  · intro hyne hdne
    apply string_eq_of_data
    show (((y ++ "-" ++ "" ++ "-" ++ d).data.dropWhile _).reverse.dropWhile _).reverse
        = (y ++ "--" ++ d).data
    have hS : (y ++ "-" ++ "" ++ "-" ++ d).data
        = y.data ++ ('-' :: '-' :: d.data) := by
      simp [String.data_append]
    have hT : (y ++ "--" ++ d).data = y.data ++ ('-' :: '-' :: d.data) := by
      simp [String.data_append]
    rw [hS, hT]
    refine stripOn_id (by simp [data_ne_nil hyne]) ?_ ?_
    · exact front_not_dash hy hyne _
    · intro c hc
      refine back_not_dash hd hdne (y.data ++ ['-', '-']) c ?_
      rw [← hc]
      congr 1

/-- C2 witness: with all three components present, the date is fully
joined; the remaining conjuncts instantiate the trimming behaviour for
`"2021"`, `"07"`, `"15"`. -/
theorem c2_witness :
    ('-' ∉ ("2021" : String).data) ∧ ('-' ∉ ("07" : String).data) ∧
    ('-' ∉ ("15" : String).data) ∧
    (("2021" : String) ≠ "" → ("07" : String) ≠ "" → ("15" : String) ≠ "" →
       composePubDate "2021" "07" "15" = "2021" ++ "-" ++ "07" ++ "-" ++ "15") ∧
    (("2021" : String) ≠ "" → ("07" : String) ≠ "" →
       composePubDate "2021" "07" "" = "2021" ++ "-" ++ "07") ∧
    (("2021" : String) ≠ "" → composePubDate "2021" "" "" = "2021") ∧
    (("2021" : String) ≠ "" → ("15" : String) ≠ "" →
       composePubDate "2021" "" "15" = "2021" ++ "--" ++ "15") :=
  ⟨by decide, by decide, by decide,
   (c2_pub_date_amended "2021" "07" "15" (by decide) (by decide) (by decide)).1,
   (c2_pub_date_amended "2021" "07" "15" (by decide) (by decide) (by decide)).2.1,
   (c2_pub_date_amended "2021" "07" "15" (by decide) (by decide) (by decide)).2.2.1,
   (c2_pub_date_amended "2021" "07" "15" (by decide) (by decide) (by decide)).2.2.2⟩
